import Mathlib

/-!
Verification of the book-data pipeline in `solution.py`: the record
normalizer (`flatten_record`), the record-set builder (`create_dataframe`),
and the twelve aggregation queries (`answer_one` .. `answer_twelve`).

Modelling conventions:
* Python `None` / pandas `NaN` / `NaT` become `Option.none`.
* Coerced datetimes (`pd.to_datetime`) become `Timestamp` values; the
  permissive string parser itself is abstracted as a parameter
  `parseDT : String → Option Timestamp` (`errors="coerce"` returns `none`
  on unparseable input).
* Free-text columns (`description`, `first_sentence`) are `List Char`;
  `Char.toLower`, `Char.isAlphanum` and `Char.isWhitespace` model Python
  `str.lower`, the regex class `\w` (with `_`) and `\s` (exact on ASCII,
  which is all the claims exercise).
* A pandas operation that raises (`Series.idxmax` on an empty series)
  is modelled by returning `none` from the enclosing query: `none` in the
  result type of `answer_two` / `answer_ten` marks the `ValueError` raise.
* pandas `groupby`/`value_counts` drop null keys; `explode` of an empty
  list yields a null key, which the subsequent `groupby` drops.
* `sort_values` is modelled as a stable sort (`List.insertionSort`);
  pandas' default `kind="quicksort"` leaves the relative order of tied
  keys unspecified, and no theorem below depends on tie order except
  where stability is explicitly part of the property being checked.
* pandas `groupby` sorts group keys; `Series.idxmax` returns the first
  index attaining the maximum. For `answer_two` the keys are sorted
  (as pandas does); for the other idxmax-style picks the key order is
  first appearance, since no claim depends on which tied key is chosen
  (the spec marks those tie-breaks implementation-defined).
-/

namespace BlueVine

/-- A coerced datetime value (result of `pd.to_datetime`). -/
structure Timestamp where
  year : Int
  month : Nat
  day : Nat
  deriving DecidableEq, Repr

/-- Total order key of a timestamp, as the comparable scalar pandas sorts by. -/
def Timestamp.key (t : Timestamp) : Int :=
  t.year * 10000 + (t.month : Int) * 100 + (t.day : Int)

/-- A row of the deduplicated table (post `create_dataframe` coercion). -/
structure BookRecord where
  isbn : String
  title : Option String
  authors : List String
  publishers : List String
  publish_date : Option Timestamp
  number_of_pages : Option Int
  goodreads_ids : List String
  last_modified : Option Timestamp
  description : List Char
  first_sentence : List Char
  deriving DecidableEq, Repr

/-- A polymorphic raw source field: plain string, object with an optional
`"value"` entry, absent, or some other (non-string, non-dict) shape. -/
inductive PolyField
  | absent
  | asString (s : List Char)
  | asObj (value : Option (List Char))
  | otherShape
  deriving DecidableEq, Repr

/-- One entry of the raw `authors` / `publishers` lists: a dict with an
optional `"name"` key. -/
structure NameEntry where
  name : Option String
  deriving DecidableEq, Repr

/-- One entry of the raw `excerpts` list. -/
structure Excerpt where
  first_sentence : Option Bool
  text : Option (List Char)
  deriving DecidableEq, Repr

/-- The raw `identifiers` object. -/
structure Identifiers where
  goodreads : Option (List String)
  deriving DecidableEq, Repr

/-- The raw `last_modified` object (a dict with an optional `"value"`). -/
structure LastModifiedObj where
  value : Option String
  deriving DecidableEq, Repr

/-- A raw payload, as the dictionary shape `flatten_record` reads.  The
`first_sentence` field is carried because a source dict may hold it, even
though `flatten_record` never reads it (claim C3 is about exactly that). -/
structure RawData where
  title : Option String
  authors : List NameEntry
  publishers : List NameEntry
  publish_date : Option String
  number_of_pages : Option Int
  identifiers : Option Identifiers
  last_modified : Option LastModifiedObj
  description : PolyField
  first_sentence : PolyField
  excerpts : List Excerpt
  deriving DecidableEq, Repr

/-- Output row of `flatten_record`: dates still raw strings (the builder
coerces them). -/
structure FlatRecord where
  isbn : String
  title : Option String
  authors : List String
  publishers : List String
  publish_date : Option String
  number_of_pages : Option Int
  goodreads_ids : List String
  last_modified : Option String
  description : List Char
  first_sentence : List Char
  deriving DecidableEq, Repr

/-- `description` extraction: dict shape takes `.get("value", "")`, string
shape is taken as is, anything else gives the empty string. -/
def getPoly : PolyField → List Char
  | .asString s => s
  | .asObj (some v) => v
  | _ => []

/-- One author/publisher entry: kept iff `entry.get("name")` is truthy,
i.e. present and non-empty. -/
def chooseName (e : NameEntry) : Option String :=
  match e.name with
  | some s => if s = ("") then none else some s
  | none => none

/-- The `excerpts` loop of `flatten_record`: first entry whose
`first_sentence` flag `is True` and whose `text` is truthy (present and
non-empty); the loop breaks there, otherwise the field stays empty. -/
def scanExcerpts : List Excerpt → List Char
  | [] => []
  | e :: rest =>
    match e.first_sentence, e.text with
    | some true, some t => if t = [] then scanExcerpts rest else t
    | _, _ => scanExcerpts rest

/-- `flatten_record(isbn, data)`.  `data = none` models both Python `None`
and any falsy payload (the code's `if not data`); an all-default dict would
produce the same record through the non-default branch anyway. -/
def flatten_record (isbn : String) (data : Option RawData) : FlatRecord :=
  match data with
  | none =>
    { isbn := isbn, title := none, authors := [], publishers := []
      publish_date := none, number_of_pages := none, goodreads_ids := []
      last_modified := none, description := [], first_sentence := [] }
  | some d =>
    { isbn := isbn
      title := d.title
      authors := d.authors.filterMap chooseName
      publishers := d.publishers.filterMap chooseName
      publish_date := d.publish_date
      number_of_pages := d.number_of_pages
      goodreads_ids := (d.identifiers.bind Identifiers.goodreads).getD []
      last_modified := d.last_modified.bind LastModifiedObj.value
      description := getPoly d.description
      first_sentence := scanExcerpts d.excerpts }

/-- Date coercion of one row: `pd.to_datetime(·, errors="coerce")` applied
to the two date-like columns, all other columns unchanged. -/
def coerceRecord (parseDT : String → Option Timestamp) (r : FlatRecord) : BookRecord :=
  { isbn := r.isbn
    title := r.title
    authors := r.authors
    publishers := r.publishers
    publish_date := r.publish_date.bind parseDT
    number_of_pages := r.number_of_pages
    goodreads_ids := r.goodreads_ids
    last_modified := r.last_modified.bind parseDT
    description := r.description
    first_sentence := r.first_sentence }

/-- Worker for `drop_duplicates(subset=["isbn"])` (keep="first" default):
keeps a row iff its isbn was not seen before, preserving order. -/
def dedupGo : List String → List BookRecord → List BookRecord
  | _, [] => []
  | seen, r :: rest =>
    if r.isbn ∈ seen then dedupGo seen rest
    else r :: dedupGo (r.isbn :: seen) rest

/-- `df.drop_duplicates(subset=["isbn"])`. -/
def drop_duplicates_isbn (rs : List BookRecord) : List BookRecord :=
  dedupGo [] rs

/-- `create_dataframe(records)`: coerce the date columns, write the audit
export `books.csv` (first component: every pre-dedup row, input order),
then drop duplicate isbns (second component: the deduplicated table). -/
def create_dataframe (parseDT : String → Option Timestamp)
    (records : List FlatRecord) : List BookRecord × List BookRecord :=
  let df := records.map (coerceRecord parseDT)
  (df, drop_duplicates_isbn df)

/-! ### Generic grouping helpers (pandas `groupby` / `unique` / `idxmax`) -/

/-- Worker for first-appearance deduplication (pandas `Series.unique`). -/
def dedupSeen {α : Type} [DecidableEq α] : List α → List α → List α
  | _, [] => []
  | seen, a :: rest =>
    if a ∈ seen then dedupSeen seen rest else a :: dedupSeen (a :: seen) rest

/-- Distinct elements in first-appearance order (pandas `Series.unique`). -/
def dedupKeepFirst {α : Type} [DecidableEq α] (l : List α) : List α :=
  dedupSeen [] l

/-- `groupby(key).size()`: one `(key, multiplicity)` pair per distinct
element, keys in first appearance order. -/
def groupCounts {α : Type} [DecidableEq α] (l : List α) : List (α × Nat) :=
  (dedupKeepFirst l).map (fun a => (a, l.count a))

/-- `Series.idxmax` on a list of `(index, value)` pairs: the first pair
attaining the maximal value; `none` on the empty list, where pandas raises
`ValueError`. -/
def idxmaxPair {α : Type} : List (α × Nat) → Option (α × Nat)
  | [] => none
  | x :: rest =>
    match idxmaxPair rest with
    | none => some x
    | some y => if x.2 < y.2 then some y else some x

/-! ### The twelve queries -/

/-- Q1: `df["title"].nunique()` (distinct non-null titles). -/
def answer_one (df : List BookRecord) : Nat :=
  (dedupKeepFirst (df.filterMap BookRecord.title)).length

/-- `df.groupby("title")["isbn"].count()`: null titles are dropped by
`groupby`, keys sorted (pandas sorts group keys), the count per title is
the number of rows carrying it (`isbn` is never null). -/
def titleCounts (df : List BookRecord) : List (String × Nat) :=
  List.insertionSort (fun x y => x.1 ≤ y.1)
    (groupCounts (df.filterMap BookRecord.title))

/-- Q2: `(title_counts.idxmax(), title_counts.max())`; `none` models the
`ValueError` that `idxmax` raises on an empty grouping. -/
def answer_two (df : List BookRecord) : Option (String × Nat) :=
  idxmaxPair (titleCounts df)

/-- Q3: rows whose `goodreads_ids` list is empty. -/
def answer_three (df : List BookRecord) : Nat :=
  (df.filter (fun r => r.goodreads_ids.length = 0)).length

/-- Q4: rows with more than one author. -/
def answer_four (df : List BookRecord) : Nat :=
  (df.filter (fun r => 1 < r.authors.length)).length

/-- `df.explode("publishers")` restricted to non-null keys: a row yields one
element per publisher it lists; a row with an empty list yields a null key,
which the following `groupby` drops. -/
def allPublishers (df : List BookRecord) : List String :=
  df.flatMap BookRecord.publishers

/-- Q5: publisher → row count over the exploded table, sorted descending by
count (`sort_values(ascending=False)`), returned as the dict's pair list. -/
def answer_five (df : List BookRecord) : List (String × Nat) :=
  List.insertionSort (fun x y => y.2 ≤ x.2) (groupCounts (allPublishers df))

/-- `Series.median` of integer values: mean of the two middle elements of
the sorted list for even length, the middle element for odd length, and
null (pandas `NaN`) for the empty series. -/
def median (l : List Int) : Option Rat :=
  let s := List.insertionSort (fun a b => a ≤ b) l
  if s.length = 0 then none
  else if s.length % 2 = 1 then some ((s.getD (s.length / 2) 0 : Int) : Rat)
  else some ((((s.getD (s.length / 2 - 1) 0 : Int) : Rat) +
              ((s.getD (s.length / 2) 0 : Int) : Rat)) / 2)

/-- Q6: `df["number_of_pages"].dropna().median()`. -/
def answer_six (df : List BookRecord) : Option Rat :=
  median (df.filterMap BookRecord.number_of_pages)

/-- `datetime(1900, m, 1).strftime("%B")` for the month numbers that
`dt.month` can produce. -/
def monthName : Nat → String
  | 1 => "January"
  | 2 => "February"
  | 3 => "March"
  | 4 => "April"
  | 5 => "May"
  | 6 => "June"
  | 7 => "July"
  | 8 => "August"
  | 9 => "September"
  | 10 => "October"
  | 11 => "November"
  | 12 => "December"
  | _ => ""

/-- Q7: mode of the month component of the non-null publish dates
(`value_counts` sorts by count descending and drops nulls; `idxmax` then
takes the first maximal entry), with the `(None, 0)` fallback. -/
def answer_seven (df : List BookRecord) : Option String × Nat :=
  let months := df.filterMap (fun r => r.publish_date.map Timestamp.month)
  match idxmaxPair (List.insertionSort (fun x y => y.2 ≤ x.2)
      (groupCounts months)) with
  | some (m, c) => (some (monthName m), c)
  | none => (none, 0)

/-! ### Q8: longest word(s) of description/first_sentence -/

/-- The regex class `\w` (ASCII): letters, digits, underscore. -/
def isWordChar (c : Char) : Bool :=
  c.isAlphanum || c = '_'

/-- `txt.lower()`, then `txt.replace("-", " ")`, then
`re.sub(r"[^\w\s]", "", ·)`. -/
def stripText (s : List Char) : List Char :=
  ((s.map Char.toLower).map (fun c => if c = '-' then ' ' else c)).filter
    (fun c => isWordChar c || c.isWhitespace)

/-- Worker for Python `str.split()` (split on whitespace runs, no empty
tokens); the first argument is the reversed current token. -/
def splitWsAux : List Char → List Char → List (List Char)
  | cur, [] => if cur = [] then [] else [cur.reverse]
  | cur, c :: rest =>
    if c.isWhitespace then
      if cur = [] then splitWsAux [] rest
      else cur.reverse :: splitWsAux [] rest
    else splitWsAux (c :: cur) rest

/-- Python `str.split()` with no separator argument. -/
def splitWs (s : List Char) : List (List Char) :=
  splitWsAux [] s

/-- One row's combined, lower-cased, hyphen-spaced, punctuation-stripped
text: `description + " " + first_sentence` through `stripText`. -/
def cleanText (r : BookRecord) : List Char :=
  stripText (r.description ++ ' ' :: r.first_sentence)

/-- One row's whitespace tokens. -/
def rowTokens (r : BookRecord) : List (List Char) :=
  splitWs (cleanText r)

/-- `words = stripped_combined.str.split().explode().dropna()`: all rows'
tokens in row order (empty token lists explode to null and are dropped). -/
def allTokens (df : List BookRecord) : List (List Char) :=
  df.flatMap rowTokens

/-- `words.unique().tolist()`. -/
def uniqueWords (df : List BookRecord) : List (List Char) :=
  dedupKeepFirst (allTokens df)

/-- `max((len(w) for w in unique_words), default=0)`. -/
def longest_len (df : List BookRecord) : Nat :=
  ((uniqueWords df).map List.length).foldr max 0

/-- `[w for w in unique_words if len(w) == longest_len]`. -/
def longest_words (df : List BookRecord) : List (List Char) :=
  (uniqueWords df).filter (fun w => w.length = longest_len df)

/-- The result shape of Q8. -/
structure Answer8 where
  length : Nat
  words : List (List Char)
  titles : List String
  deriving DecidableEq, Repr

/-- Q8: the row loop appends a row's title when some longest word is a
substring of the row's clean text and the title is non-null (`pd.notna`);
`list(set(...))` collapses duplicates (set order is not contractual, the
embedding keeps first appearance). The loop is guarded by
`if longest_words:`. -/
def answer_eight (df : List BookRecord) : Answer8 :=
  { length := longest_len df
    words := longest_words df
    titles :=
      if longest_words df = [] then []
      else dedupKeepFirst (df.filterMap (fun r =>
        if (longest_words df).any (fun w => decide (w <:+: cleanText r)) then r.title
        else none)) }

/-! ### Q9–Q12 -/

/-- Sort key of a row's publish date (only used on rows that have one). -/
def dateKey (r : BookRecord) : Int :=
  match r.publish_date with
  | some d => d.key
  | none => 0

/-- `df.dropna(subset=["publish_date"])`. -/
def validDates (df : List BookRecord) : List BookRecord :=
  df.filter (fun r => r.publish_date.isSome)

/-- Q9: head of the stable descending sort of the date-bearing rows,
returning `(title, date)`; `(None, None)` when no row has a date. -/
def answer_nine (df : List BookRecord) : Option String × Option Timestamp :=
  match (List.insertionSort (fun a b => dateKey b ≤ dateKey a)
      (validDates df)).head? with
  | none => (none, none)
  | some r => (r.title, r.publish_date)

/-- Q10: `int(df["last_modified"].dt.year.value_counts().idxmax())`;
`none` models the `ValueError` raise of `idxmax` when no row has a
non-null `last_modified`. -/
def answer_ten (df : List BookRecord) : Option Int :=
  let years := df.filterMap (fun r => r.last_modified.map Timestamp.year)
  (idxmaxPair (List.insertionSort (fun x y => y.2 ≤ x.2)
    (groupCounts years))).map Prod.fst

/-- `nunique` of the `title` column of a row subset. -/
def nuniqueTitles (rows : List BookRecord) : Nat :=
  (dedupKeepFirst (rows.filterMap BookRecord.title)).length

/-- `df.explode("authors").groupby("authors")["title"].nunique()`: the
group of author `a` consists of the rows listing `a`. -/
def authorTitleCounts (df : List BookRecord) : List (String × Nat) :=
  (dedupKeepFirst (df.flatMap BookRecord.authors)).map
    (fun a => (a, nuniqueTitles (df.filter (fun r => a ∈ r.authors))))

/-- `sort_values("publish_date")` comparison: ascending by date, null dates
last (`na_position="last"`). -/
def pubAsc (a b : BookRecord) : Bool :=
  match a.publish_date, b.publish_date with
  | some x, some y => x.key ≤ y.key
  | _, none => true
  | none, some _ => false

/-- Q11: top author by distinct-title count, then `iloc[1]["title"]` of
that author's rows sorted ascending by publish date, `None` when the
author has at most one row. -/
def answer_eleven (df : List BookRecord) : Option String :=
  match idxmaxPair (authorTitleCounts df) with
  | none => none
  | some (top_author, _) =>
    let author_books := List.insertionSort (fun a b => pubAsc a b = true)
      (df.filter (fun r => top_author ∈ r.authors))
    match author_books.get? 1 with
    | some r => r.title
    | none => none

/-- `df.explode("publishers").explode("authors")` restricted to rows where
both keys are non-null (nulls are dropped by the `groupby`). -/
def pairList (df : List BookRecord) : List (String × String) :=
  df.flatMap (fun r => r.publishers.flatMap (fun p => r.authors.map (fun a => (p, a))))

/-- Q12: most frequent (publisher, author) pair with its count, and the
`(None, 0)` fallback on an empty pair set. -/
def answer_twelve (df : List BookRecord) : Option (String × String) × Nat :=
  match idxmaxPair (groupCounts (pairList df)) with
  | some (pa, c) => (some pa, c)
  | none => (none, 0)

/-! ### Helper lemmas on the grouping combinators -/

theorem mem_dedupSeen {α : Type} [DecidableEq α] (a : α) (l : List α) :
    ∀ seen, a ∈ dedupSeen seen l ↔ a ∈ l ∧ a ∉ seen := by
  induction l with
  | nil => intro seen; simp [dedupSeen]
  | cons b rest ih =>
    intro seen
    by_cases hb : b ∈ seen
    · simp only [dedupSeen, if_pos hb, ih seen, List.mem_cons]
      constructor
      · rintro ⟨h1, h2⟩; exact ⟨Or.inr h1, h2⟩
      · rintro ⟨rfl | h1, h2⟩
        · exact absurd hb h2
        · exact ⟨h1, h2⟩
    · simp only [dedupSeen, if_neg hb, List.mem_cons, ih (b :: seen)]
      constructor
      · rintro (rfl | ⟨h1, h2⟩)
        · exact ⟨Or.inl rfl, hb⟩
        · exact ⟨Or.inr h1, fun hs => h2 (Or.inr hs)⟩
      · rintro ⟨rfl | h1, h2⟩
        · exact Or.inl rfl
        · rcases eq_or_ne a b with rfl | hab
          · exact Or.inl rfl
          · exact Or.inr ⟨h1, fun hs => hs.elim hab h2⟩

theorem mem_dedupKeepFirst {α : Type} [DecidableEq α] (a : α) (l : List α) :
    a ∈ dedupKeepFirst l ↔ a ∈ l := by
  rw [dedupKeepFirst, mem_dedupSeen]
  simp

theorem nodup_dedupSeen {α : Type} [DecidableEq α] (l : List α) :
    ∀ seen, (dedupSeen seen l).Nodup := by
  induction l with
  | nil => intro seen; simp [dedupSeen]
  | cons b rest ih =>
    intro seen
    by_cases hb : b ∈ seen
    · simpa [dedupSeen, hb] using ih seen
    · simp only [dedupSeen, if_neg hb]
      rw [List.nodup_cons]
      refine ⟨fun hmem => ?_, ih (b :: seen)⟩
      exact ((mem_dedupSeen b rest (b :: seen)).mp hmem).2 (List.mem_cons_self b seen)

theorem nodup_dedupKeepFirst {α : Type} [DecidableEq α] (l : List α) :
    (dedupKeepFirst l).Nodup :=
  nodup_dedupSeen l []

theorem dedupKeepFirst_perm_dedup {α : Type} [DecidableEq α] (l : List α) :
    (dedupKeepFirst l).Perm l.dedup :=
  (List.perm_ext_iff_of_nodup (nodup_dedupKeepFirst l) l.nodup_dedup).mpr
    (fun a => by rw [mem_dedupKeepFirst, List.mem_dedup])

theorem sum_count_dedupKeepFirst {α : Type} [DecidableEq α] (l : List α) :
    ((dedupKeepFirst l).map (fun a => l.count a)).sum = l.length := by
  have h := (dedupKeepFirst_perm_dedup l).map (fun a => l.count a)
  rw [h.sum_eq]
  exact List.sum_map_count_dedup_eq_length l

theorem idxmaxPair_mem {α : Type} : ∀ (l : List (α × Nat)) (x : α × Nat),
    idxmaxPair l = some x → x ∈ l
  | [], x, h => by simp [idxmaxPair] at h
  | y :: rest, x, h => by
    rw [idxmaxPair] at h
    cases hr : idxmaxPair rest with
    | none =>
      rw [hr] at h
      exact (Option.some.inj h) ▸ List.mem_cons_self _ _
    | some z =>
      rw [hr] at h
      change (if y.2 < z.2 then some z else some y) = some x at h
      by_cases hc : y.2 < z.2
      · rw [if_pos hc] at h
        exact (Option.some.inj h) ▸ List.mem_cons_of_mem _ (idxmaxPair_mem rest z hr)
      · rw [if_neg hc] at h
        exact (Option.some.inj h) ▸ List.mem_cons_self _ _

theorem mem_groupCounts {α : Type} [DecidableEq α] (l : List α) (a : α) (c : Nat)
    (h : (a, c) ∈ groupCounts l) : a ∈ l ∧ c = l.count a := by
  rw [groupCounts, List.mem_map] at h
  obtain ⟨b, hb, heq⟩ := h
  rw [Prod.mk.injEq] at heq
  obtain ⟨rfl, rfl⟩ := heq
  exact ⟨(mem_dedupKeepFirst _ l).mp hb, rfl⟩

theorem le_foldr_max (n : Nat) : ∀ (l : List Nat), n ∈ l → n ≤ l.foldr max 0
  | [], h => absurd h (List.not_mem_nil n)
  | a :: t, h => by
    rcases List.mem_cons.mp h with rfl | h
    · exact le_max_left _ _
    · exact le_trans (le_foldr_max n t h) (le_max_right _ _)

theorem length_le_sum_map {α : Type} (f : α → Nat) : ∀ (l : List α),
    (∀ x ∈ l, 1 ≤ f x) → l.length ≤ (l.map f).sum := by
  intro l
  induction l with
  | nil => simp
  | cons a t ih =>
    intro h
    simp only [List.length_cons, List.map_cons, List.sum_cons]
    have h1 := h a (List.mem_cons_self a t)
    have h2 := ih (fun x hx => h x (List.mem_cons_of_mem _ hx))
    omega

theorem sum_map_eq_length_iff {α : Type} (f : α → Nat) : ∀ (l : List α),
    (∀ x ∈ l, 1 ≤ f x) → ((l.map f).sum = l.length ↔ ∀ x ∈ l, f x = 1) := by
  intro l
  induction l with
  | nil => simp
  | cons a t ih =>
    intro h
    have h1 := h a (List.mem_cons_self a t)
    have h2 := length_le_sum_map f t (fun x hx => h x (List.mem_cons_of_mem _ hx))
    have h3 := ih (fun x hx => h x (List.mem_cons_of_mem _ hx))
    simp only [List.map_cons, List.sum_cons, List.length_cons, List.forall_mem_cons]
    constructor
    · intro he
      have hfa : f a = 1 := by omega
      exact ⟨hfa, h3.mp (by omega)⟩
    · rintro ⟨hfa, hall⟩
      rw [hfa, h3.mpr hall]
      omega

/-! ### The head of the stable descending date sort -/

/-- Specification-side characterization of `answer_nine`'s pick: the first
row attaining the maximal date key (kept only on a strict improvement). -/
def firstMaxRow : List BookRecord → Option BookRecord
  | [] => none
  | a :: rest =>
    match firstMaxRow rest with
    | none => some a
    | some b => if dateKey a < dateKey b then some b else some a

theorem firstMaxRow_ne_none (a : BookRecord) (rest : List BookRecord) :
    firstMaxRow (a :: rest) ≠ none := by
  rw [firstMaxRow]
  cases firstMaxRow rest with
  | none => simp
  | some b => by_cases h : dateKey a < dateKey b <;> simp [h]

theorem head_insertionSort_eq_firstMaxRow : ∀ (l : List BookRecord),
    (List.insertionSort (fun a b => dateKey b ≤ dateKey a) l).head? = firstMaxRow l
  | [] => rfl
  | a :: rest => by
    have ih := head_insertionSort_eq_firstMaxRow rest
    rw [List.insertionSort, firstMaxRow]
    cases hs : List.insertionSort (fun a b => dateKey b ≤ dateKey a) rest with
    | nil =>
      rw [hs] at ih
      have ih' : firstMaxRow rest = none := ih.symm
      rw [ih']
      rfl
    | cons b s =>
      rw [hs] at ih
      have ih' : firstMaxRow rest = some b := ih.symm
      rw [ih']
      change (List.orderedInsert (fun a b => dateKey b ≤ dateKey a) a (b :: s)).head? =
        if dateKey a < dateKey b then some b else some a
      rcases le_or_lt (dateKey b) (dateKey a) with hc | hc
      · rw [if_neg (not_lt.mpr hc)]
        simp [List.orderedInsert, hc]
      · rw [if_pos hc]
        simp [List.orderedInsert, not_le.mpr hc]

theorem firstMaxRow_spec : ∀ (l : List BookRecord) (m : BookRecord),
    firstMaxRow l = some m →
    ∃ l₁ l₂, l = l₁ ++ m :: l₂ ∧ (∀ x ∈ l₁, dateKey x < dateKey m) ∧
      ∀ x ∈ l, dateKey x ≤ dateKey m
  | [], m => by simp [firstMaxRow]
  | a :: rest, m => by
    intro h
    rw [firstMaxRow] at h
    cases hr : firstMaxRow rest with
    | none =>
      rw [hr] at h
      have hm : a = m := Option.some.inj h
      subst hm
      have hrest : rest = [] := by
        cases rest with
        | nil => rfl
        | cons b t => exact absurd hr (firstMaxRow_ne_none b t)
      subst hrest
      exact ⟨[], [], rfl, by simp, by simp⟩
    | some b =>
      rw [hr] at h
      change (if dateKey a < dateKey b then some b else some a) = some m at h
      obtain ⟨t₁, t₂, ht, hlt, hle⟩ := firstMaxRow_spec rest b hr
      by_cases hc : dateKey a < dateKey b
      · rw [if_pos hc] at h
        have hm : b = m := Option.some.inj h
        subst hm
        refine ⟨a :: t₁, t₂, by rw [ht]; rfl, ?_, ?_⟩
        · intro x hx
          rcases List.mem_cons.mp hx with rfl | hx
          · exact hc
          · exact hlt x hx
        · intro x hx
          rcases List.mem_cons.mp hx with rfl | hx
          · exact le_of_lt hc
          · exact hle x hx
      · rw [if_neg hc] at h
        have hm : a = m := Option.some.inj h
        subst hm
        refine ⟨[], rest, rfl, by simp, ?_⟩
        intro x hx
        rcases List.mem_cons.mp hx with rfl | hx
        · exact le_refl _
        · exact le_trans (hle x hx) (not_lt.mp hc)

/-! ### The excerpt scan -/

theorem scanExcerpts_cons (e : Excerpt) (rest : List Excerpt) :
    scanExcerpts (e :: rest) =
      if e.first_sentence = some true ∧ e.text.getD [] ≠ []
      then e.text.getD [] else scanExcerpts rest := by
  obtain ⟨fs, tx⟩ := e
  cases fs with
  | none => cases tx <;> simp [scanExcerpts]
  | some b =>
    cases b with
    | false => cases tx <;> simp [scanExcerpts]
    | true =>
      cases tx with
      | none => simp [scanExcerpts]
      | some t => by_cases ht : t = [] <;> simp [scanExcerpts, ht]

theorem scanExcerpts_eq_nil (l : List Excerpt)
    (h : ∀ e ∈ l, ¬(e.first_sentence = some true ∧ ∃ t, e.text = some t ∧ t ≠ [])) :
    scanExcerpts l = [] := by
  induction l with
  | nil => rfl
  | cons e rest ih =>
    rw [scanExcerpts_cons]
    by_cases hc : e.first_sentence = some true ∧ e.text.getD [] ≠ []
    · exfalso
      apply h e (List.mem_cons_self e rest)
      refine ⟨hc.1, e.text.getD [], ?_, hc.2⟩
      cases htx : e.text with
      | none => exact absurd (by rw [htx]; rfl) hc.2
      | some t => rfl
    · rw [if_neg hc]
      exact ih (fun x hx => h x (List.mem_cons_of_mem _ hx))

theorem scanExcerpts_mem (l : List Excerpt) (h : scanExcerpts l ≠ []) :
    ∃ e ∈ l, e.first_sentence = some true ∧ e.text = some (scanExcerpts l) := by
  induction l with
  | nil => exact absurd rfl h
  | cons e rest ih =>
    rw [scanExcerpts_cons] at h ⊢
    by_cases hc : e.first_sentence = some true ∧ e.text.getD [] ≠ []
    · rw [if_pos hc] at h ⊢
      refine ⟨e, List.mem_cons_self e rest, hc.1, ?_⟩
      cases htx : e.text with
      | none => exact absurd (by rw [htx]; rfl) hc.2
      | some t => rfl
    · rw [if_neg hc] at h ⊢
      obtain ⟨x, hx, hfsx, htxx⟩ := ih h
      exact ⟨x, List.mem_cons_of_mem _ hx, hfsx, htxx⟩

theorem scanExcerpts_first_qualifying : ∀ (l₁ : List Excerpt) (e : Excerpt)
    (l₂ : List Excerpt) (t : List Char),
    (∀ x ∈ l₁, ¬(x.first_sentence = some true ∧ ∃ u, x.text = some u ∧ u ≠ [])) →
    e.first_sentence = some true → e.text = some t → t ≠ [] →
    scanExcerpts (l₁ ++ e :: l₂) = t
  | [], e, l₂, t, _, hflag, htext, hne => by
    rw [List.nil_append, scanExcerpts_cons,
      if_pos ⟨hflag, by rw [htext]; exact hne⟩, htext]
    rfl
  | x :: rest, e, l₂, t, h1, hflag, htext, hne => by
    rw [List.cons_append, scanExcerpts_cons]
    have hx : ¬(x.first_sentence = some true ∧ x.text.getD [] ≠ []) := by
      rintro ⟨hf, hg⟩
      apply h1 x (List.mem_cons_self x rest)
      refine ⟨hf, x.text.getD [], ?_, hg⟩
      cases hxt : x.text with
      | none => exact absurd (by rw [hxt]; rfl) hg
      | some u => rfl
    rw [if_neg hx]
    exact scanExcerpts_first_qualifying rest e l₂ t
      (fun y hy => h1 y (List.mem_cons_of_mem _ hy)) hflag htext hne

/-! ### Deduplication by isbn -/

theorem dedupGo_sublist : ∀ (seen : List String) (rs : List BookRecord),
    (dedupGo seen rs).Sublist rs
  | _, [] => List.Sublist.slnil
  | seen, r :: rest => by
    rw [dedupGo]
    by_cases h : r.isbn ∈ seen
    · rw [if_pos h]
      exact List.Sublist.cons r (dedupGo_sublist seen rest)
    · rw [if_neg h]
      exact List.Sublist.cons₂ r (dedupGo_sublist (r.isbn :: seen) rest)

theorem dedupGo_filter_mem (i : String) : ∀ (seen : List String) (rs : List BookRecord),
    i ∈ seen → (dedupGo seen rs).filter (fun r => decide (r.isbn = i)) = []
  | _, [], _ => rfl
  | seen, r :: rest, h => by
    rw [dedupGo]
    by_cases hr : r.isbn ∈ seen
    · rw [if_pos hr]
      exact dedupGo_filter_mem i seen rest h
    · have hne : ¬(r.isbn = i) := fun he => hr (he ▸ h)
      rw [if_neg hr, List.filter_cons, if_neg (by simp [hne])]
      exact dedupGo_filter_mem i (r.isbn :: seen) rest (List.mem_cons_of_mem _ h)

theorem dedupGo_filter_not_mem (i : String) : ∀ (seen : List String) (rs : List BookRecord),
    i ∉ seen →
    (dedupGo seen rs).filter (fun r => decide (r.isbn = i)) =
      (rs.filter (fun r => decide (r.isbn = i))).take 1
  | _, [], _ => rfl
  | seen, r :: rest, h => by
    rw [dedupGo]
    by_cases hr : r.isbn ∈ seen
    · have hne : ¬(r.isbn = i) := fun he => h (he ▸ hr)
      rw [if_pos hr, List.filter_cons, if_neg (by simp [hne])]
      exact dedupGo_filter_not_mem i seen rest h
    · rw [if_neg hr]
      by_cases hi : r.isbn = i
      · rw [List.filter_cons, List.filter_cons, if_pos (by simp [hi]), if_pos (by simp [hi])]
        rw [dedupGo_filter_mem i (r.isbn :: seen) rest
          (List.mem_cons.mpr (Or.inl hi.symm))]
        rfl
      · rw [List.filter_cons, List.filter_cons, if_neg (by simp [hi]), if_neg (by simp [hi])]
        refine dedupGo_filter_not_mem i (r.isbn :: seen) rest ?_
        intro hmem
        rcases List.mem_cons.mp hmem with he | hs
        · exact hi he.symm
        · exact h hs

/-! ### Counting rows by title / publisher -/

theorem count_title_rows (df : List BookRecord) (t : String) :
    (df.filterMap BookRecord.title).count t =
      df.countP (fun r => decide (r.title = some t)) := by
  rw [List.count_eq_countP, List.countP_filterMap]
  apply List.countP_congr
  intro r _
  cases htitle : r.title with
  | none => simp
  | some s => simp

theorem sumValues_answer_five (df : List BookRecord) :
    ((answer_five df).map Prod.snd).sum =
      (df.map (fun r => r.publishers.length)).sum := by
  have h1 : ((answer_five df).map Prod.snd).sum =
      ((groupCounts (allPublishers df)).map Prod.snd).sum :=
    (((List.perm_insertionSort (fun x y : String × Nat => y.2 ≤ x.2)
      (groupCounts (allPublishers df)))).map Prod.snd).sum_eq
  have h2 : ((groupCounts (allPublishers df)).map Prod.snd).sum =
      (allPublishers df).length := by
    show (((dedupKeepFirst (allPublishers df)).map
        (fun a => (a, (allPublishers df).count a))).map Prod.snd).sum =
      (allPublishers df).length
    rw [List.map_map]
    exact sum_count_dedupKeepFirst (allPublishers df)
  have h3 : (allPublishers df).length = (df.map (fun r => r.publishers.length)).sum := by
    show (df.flatMap BookRecord.publishers).length = _
    rw [List.length_flatMap]
    rfl
  rw [h1, h2, h3]

theorem mem_answer_five (df : List BookRecord) (p : String) (c : Nat)
    (h : (p, c) ∈ answer_five df) :
    c = (df.map (fun r => r.publishers.count p)).sum := by
  have h' : (p, c) ∈ groupCounts (allPublishers df) :=
    (List.perm_insertionSort (fun x y : String × Nat => y.2 ≤ x.2)
      (groupCounts (allPublishers df))).mem_iff.mp h
  obtain ⟨hmem, hc⟩ := mem_groupCounts _ _ _ h'
  rw [hc]
  show List.count p (df.flatMap BookRecord.publishers) = _
  rw [List.count_flatMap]
  rfl

/-! ### Concrete rows and payloads used in the example parts and witnesses -/

/-- A row with every optional field absent and every list/text field empty. -/
def blankRow : BookRecord :=
  { isbn := "b", title := none, authors := [], publishers := [], publish_date := none,
    number_of_pages := none, goodreads_ids := [], last_modified := none,
    description := [], first_sentence := [] }

/-! ### Claims -/

/-- Claim C1 (code bug): the spec demands that each of the twelve queries
returns its documented fallback and never raises, even on an empty table or
an all-absent column; but `answer_two` and `answer_ten` reach
`Series.idxmax` on an empty series there, which raises `ValueError`
(modelled as `none`, see the module header) instead of producing a
fallback.  The other ten queries are total by construction. -/
theorem claim1_idxmax_raises :
    answer_two [] = none ∧ answer_ten [] = none ∧
    answer_two [blankRow] = none ∧ answer_ten [blankRow] = none :=
  ⟨rfl, rfl, rfl, rfl⟩

/-- Claim C4: for every isbn, an absent payload flattens (without error) to
the record with that isbn, empty list fields, absent scalars, and empty
`description` / `first_sentence`. -/
theorem claim4_absent_payload (isbn : String) :
    (flatten_record isbn none).isbn = isbn ∧
    (flatten_record isbn none).authors = [] ∧
    (flatten_record isbn none).publishers = [] ∧
    (flatten_record isbn none).goodreads_ids = [] ∧
    (flatten_record isbn none).title = none ∧
    (flatten_record isbn none).publish_date = none ∧
    (flatten_record isbn none).number_of_pages = none ∧
    (flatten_record isbn none).last_modified = none ∧
    (flatten_record isbn none).description = [] ∧
    (flatten_record isbn none).first_sentence = [] :=
  ⟨rfl, rfl, rfl, rfl, rfl, rfl, rfl, rfl, rfl, rfl⟩

/-- A payload carrying a top-level `first_sentence` string and no excerpts. -/
def rawTopFS : RawData :=
  { title := none, authors := [], publishers := [], publish_date := none,
    number_of_pages := none, identifiers := none, last_modified := none,
    description := PolyField.absent,
    first_sentence := PolyField.asString ("A first.".toList),
    excerpts := [] }

/-- Claim C3 counterexample: `rawTopFS` carries a top-level
`first_sentence` field holding a non-empty string, yet `flatten_record`
leaves the record's `first_sentence` empty: the top-level field is never
consulted, contradicting the claim that it takes priority. -/
theorem claim3_counterexample :
    rawTopFS.first_sentence = PolyField.asString ("A first.".toList) ∧
    getPoly rawTopFS.first_sentence ≠ [] ∧
    (flatten_record ("0") (some rawTopFS)).first_sentence = [] := by
  refine ⟨rfl, ?_, rfl⟩
  decide

/-- Claim C3 (amended): `flatten_record` ignores any top-level
`first_sentence` field entirely (two payloads differing only there flatten
identically); the record's `first_sentence` comes solely from the
`excerpts` scan: it is empty when no excerpt has the flag set with
non-empty text; a non-empty result is some qualifying excerpt's text; and
whenever the excerpt list splits as `l₁ ++ e :: l₂` with no qualifying
entry in `l₁` and `e` qualifying (flag boolean-true, text present and
non-empty), the result is exactly `e`'s text — the first qualifying
excerpt wins. -/
theorem claim3_amended_excerpts_only (isbn : String) (d : RawData)
    (fs1 fs2 : PolyField) :
    flatten_record isbn (some { d with first_sentence := fs1 }) =
      flatten_record isbn (some { d with first_sentence := fs2 }) ∧
    ((∀ e ∈ d.excerpts,
        ¬(e.first_sentence = some true ∧ ∃ t, e.text = some t ∧ t ≠ [])) →
      (flatten_record isbn (some d)).first_sentence = []) ∧
    ((flatten_record isbn (some d)).first_sentence ≠ [] →
      ∃ e ∈ d.excerpts, e.first_sentence = some true ∧
        e.text = some ((flatten_record isbn (some d)).first_sentence)) ∧
    (∀ (l₁ : List Excerpt) (e : Excerpt) (l₂ : List Excerpt) (t : List Char),
      d.excerpts = l₁ ++ e :: l₂ →
      (∀ x ∈ l₁, ¬(x.first_sentence = some true ∧ ∃ u, x.text = some u ∧ u ≠ [])) →
      e.first_sentence = some true → e.text = some t → t ≠ [] →
      (flatten_record isbn (some d)).first_sentence = t) := by
  refine ⟨rfl, ?_, ?_, ?_⟩
  · intro h
    exact scanExcerpts_eq_nil d.excerpts h
  · intro h
    exact scanExcerpts_mem d.excerpts h
  · intro l₁ e l₂ t hdec h1 hflag htext hne
    show scanExcerpts d.excerpts = t
    rw [hdec]
    exact scanExcerpts_first_qualifying l₁ e l₂ t h1 hflag htext hne

/-- A payload whose excerpt list has a flagged-but-empty-text entry, an
unflagged entry, then two qualifying entries; it also carries a top-level
`first_sentence` that the code ignores. -/
def rawWithExcerpts : RawData :=
  { title := none, authors := [], publishers := [], publish_date := none,
    number_of_pages := none, identifiers := none, last_modified := none,
    description := PolyField.absent,
    first_sentence := PolyField.asString ("Ignored.".toList),
    excerpts :=
      [ { first_sentence := some true, text := some [] },
        { first_sentence := some false, text := some ("Not this.".toList) },
        { first_sentence := some true, text := some ("First light.".toList) },
        { first_sentence := some true, text := some ("Nor this.".toList) } ] }

theorem claim3_witness :
    (flatten_record ("1") (some rawWithExcerpts)).first_sentence =
      ("First light.".toList) :=
  (claim3_amended_excerpts_only ("1") rawWithExcerpts PolyField.absent
    PolyField.otherShape).2.2.2
    [{ first_sentence := some true, text := some [] },
     { first_sentence := some false, text := some ("Not this.".toList) }]
    { first_sentence := some true, text := some ("First light.".toList) }
    [{ first_sentence := some true, text := some ("Nor this.".toList) }]
    ("First light.".toList) rfl (by decide) rfl rfl (by decide)

/-- Claim C2 counterexample: on the one-row table whose row lists no
publishers, the row explodes to a null key that the `groupby` drops, so
the values of `answer_five` sum to 0, below the claimed lower bound of
1 row. -/
theorem claim2_counterexample :
    ¬ (([blankRow] : List BookRecord).length ≤
        ((answer_five [blankRow]).map Prod.snd).sum) := by
  decide

/-- Claim C2 (amended): each entry of `answer_five` counts rows once per
occurrence of its publisher in their lists; provided every row lists at
least one publisher, the values sum to at least the number of rows, with
equality exactly when every row lists exactly one.  (The proviso is forced
by the counterexample: a publisher-less row contributes nothing.) -/
theorem claim2_amended_per_publisher (df : List BookRecord)
    (h : ∀ r ∈ df, r.publishers ≠ []) :
    (∀ p c, (p, c) ∈ answer_five df →
      c = (df.map (fun r => r.publishers.count p)).sum) ∧
    df.length ≤ ((answer_five df).map Prod.snd).sum ∧
    (((answer_five df).map Prod.snd).sum = df.length ↔
      ∀ r ∈ df, r.publishers.length = 1) := by
  have hone : ∀ r ∈ df, 1 ≤ r.publishers.length := by
    intro r hr
    have := List.length_pos.mpr (h r hr)
    omega
  refine ⟨fun p c hpc => mem_answer_five df p c hpc, ?_, ?_⟩
  · rw [sumValues_answer_five]
    exact length_le_sum_map _ df hone
  · rw [sumValues_answer_five]
    exact sum_map_eq_length_iff _ df hone

/-- A row listing exactly one publisher. -/
def pubRowA : BookRecord := { blankRow with publishers := ["A"] }

theorem claim2_witness :
    ([pubRowA] : List BookRecord).length ≤
      ((answer_five [pubRowA]).map Prod.snd).sum :=
  (claim2_amended_per_publisher [pubRowA] (by decide)).2.1

/-- Claim C5: with (at least) two input rows sharing an isbn, the
deduplicated table is a subsequence of the coerced input (relative order
preserved), contains exactly one row for that isbn — the first
occurrence's values — and the audit export (`books.csv`, the first
component) keeps every pre-dedup row in input order, duplicates
included. -/
theorem claim5_dedup_keeps_first (parseDT : String → Option Timestamp)
    (records : List FlatRecord) (i : String)
    (h : 2 ≤ (records.filter (fun r => decide (r.isbn = i))).length) :
    ((create_dataframe parseDT records).2).Sublist
        (records.map (coerceRecord parseDT)) ∧
    (create_dataframe parseDT records).2.filter (fun r => decide (r.isbn = i)) =
      ((records.filter (fun r => decide (r.isbn = i))).map
        (coerceRecord parseDT)).take 1 ∧
    ((create_dataframe parseDT records).2.filter
        (fun r => decide (r.isbn = i))).length = 1 ∧
    (create_dataframe parseDT records).1.length = records.length ∧
    ∀ k : Nat, (create_dataframe parseDT records).1[k]? =
      (records[k]?).map (coerceRecord parseDT) := by
  have hcomm : (records.map (coerceRecord parseDT)).filter
        (fun r => decide (r.isbn = i)) =
      (records.filter (fun r => decide (r.isbn = i))).map (coerceRecord parseDT) := by
    rw [List.filter_map]
    rfl
  have hfil : (create_dataframe parseDT records).2.filter
        (fun r => decide (r.isbn = i)) =
      ((records.filter (fun r => decide (r.isbn = i))).map
        (coerceRecord parseDT)).take 1 := by
    have := dedupGo_filter_not_mem i [] (records.map (coerceRecord parseDT))
      (List.not_mem_nil i)
    rw [hcomm] at this
    exact this
  refine ⟨?_, hfil, ?_, ?_, ?_⟩
  · exact dedupGo_sublist [] (records.map (coerceRecord parseDT))
  · rw [hfil, List.length_take, List.length_map]
    have h2 := h
    omega
  · exact List.length_map records (coerceRecord parseDT)
  · intro k
    exact List.getElem?_map (coerceRecord parseDT) records k

/-- Two flat records sharing the isbn "x" with different titles. -/
def flatA : FlatRecord :=
  { isbn := "x", title := some ("A"), authors := [], publishers := [],
    publish_date := none, number_of_pages := none, goodreads_ids := [],
    last_modified := none, description := [], first_sentence := [] }

/-- Second occurrence of isbn "x". -/
def flatB : FlatRecord := { flatA with title := some ("B") }

theorem claim5_witness :
    ((create_dataframe (fun _ => none) [flatA, flatB]).2.filter
      (fun r => decide (r.isbn = "x"))).length = 1 :=
  (claim5_dedup_keeps_first (fun _ => none) [flatA, flatB] ("x") (by decide)).2.2.1

/-- Rows with only a page count set. -/
def p100 : BookRecord := { blankRow with number_of_pages := some 100 }

/-- See `p100`. -/
def p200 : BookRecord := { blankRow with number_of_pages := some 200 }

/-- See `p100`. -/
def p300 : BookRecord := { blankRow with number_of_pages := some 300 }

/-- Claim C7: `answer_six` is the standard median of the rows' present
page counts — `[100, 200, 300] ↦ 200` and `[100, 200] ↦ 150` (mean of the
two middle values) — and it is absent when no row has a present value. -/
theorem claim7_median (df : List BookRecord)
    (h : ∀ r ∈ df, r.number_of_pages = none) :
    answer_six df = none ∧
    answer_six [p100, p200, p300] = some ((200 : Rat)) ∧
    answer_six [p100, p200] = some ((150 : Rat)) := by
  refine ⟨?_, ?_, ?_⟩
  · have hnil : df.filterMap BookRecord.number_of_pages = [] :=
      List.filterMap_eq_nil_iff.mpr h
    show median (df.filterMap BookRecord.number_of_pages) = none
    rw [hnil]
    rfl
  · show median [(100 : Int), 200, 300] = some ((200 : Rat))
    norm_num [median, List.insertionSort, List.orderedInsert]
  · show median [(100 : Int), 200] = some ((150 : Rat))
    norm_num [median, List.insertionSort, List.orderedInsert]

theorem claim7_witness :
    answer_six [] = none ∧
    answer_six [p100, p200, p300] = some ((200 : Rat)) ∧
    answer_six [p100, p200] = some ((150 : Rat)) :=
  claim7_median [] (fun r hr => absurd hr (List.not_mem_nil r))

/-- Claim C9: when `answer_two` returns a pair, its title is carried by
some row of the table, its count is the number of rows carrying exactly
that (present) title, and every group of the underlying grouping likewise
counts only rows carrying its own present title — rows with an absent
title are dropped by the `groupby` and contribute to no group. -/
theorem claim9_absent_titles_excluded (df : List BookRecord) (t : String) (c : Nat)
    (h : answer_two df = some (t, c)) :
    (∃ r ∈ df, r.title = some t) ∧
    c = df.countP (fun r => decide (r.title = some t)) ∧
    ∀ p ∈ titleCounts df, p.2 = df.countP (fun r => decide (r.title = some p.1)) := by
  have hgroups : ∀ p ∈ titleCounts df,
      p.2 = df.countP (fun r => decide (r.title = some p.1)) := by
    intro p hp
    obtain ⟨a, b⟩ := p
    have hp' : (a, b) ∈ groupCounts (df.filterMap BookRecord.title) :=
      (List.perm_insertionSort (fun x y : String × Nat => x.1 ≤ y.1)
        (groupCounts (df.filterMap BookRecord.title))).mem_iff.mp hp
    obtain ⟨hmem, hcnt⟩ := mem_groupCounts _ a b hp'
    rw [hcnt]
    exact count_title_rows df a
  have hmem2 : (t, c) ∈ titleCounts df := idxmaxPair_mem _ _ h
  have hmem3 : (t, c) ∈ groupCounts (df.filterMap BookRecord.title) :=
    (List.perm_insertionSort (fun x y : String × Nat => x.1 ≤ y.1)
      (groupCounts (df.filterMap BookRecord.title))).mem_iff.mp hmem2
  obtain ⟨hmemT, hcnt⟩ := mem_groupCounts _ t c hmem3
  refine ⟨List.mem_filterMap.mp hmemT, ?_, hgroups⟩
  rw [hcnt]
  exact count_title_rows df t

/-- A row with only the title set. -/
def titledRow : BookRecord := { blankRow with title := some ("T") }

theorem claim9_witness :
    (∃ r ∈ ([titledRow] : List BookRecord), r.title = some ("T")) ∧
    1 = List.countP (fun r => decide (r.title = some ("T"))) [titledRow] ∧
    ∀ p ∈ titleCounts [titledRow],
      p.2 = List.countP (fun r => decide (r.title = some p.1)) [titledRow] :=
  claim9_absent_titles_excluded [titledRow] ("T") 1 (by decide)

/-- Claim C10: on any table whose rows all have empty `description` and
`first_sentence` (the empty table included), `answer_eight` returns the
fallback of length 0 with no words and no titles, without error. -/
theorem claim10_empty_texts (df : List BookRecord)
    (h : ∀ r ∈ df, r.description = [] ∧ r.first_sentence = []) :
    answer_eight df = { length := 0, words := [], titles := [] } := by
  have htok : allTokens df = [] := by
    simp only [allTokens, List.flatMap_eq_nil_iff]
    intro r hr
    obtain ⟨h1, h2⟩ := h r hr
    simp only [rowTokens, cleanText, h1, h2]
    rfl
  have hlw : longest_words df = [] := by
    simp only [longest_words, uniqueWords, htok]
    rfl
  have hlen : longest_len df = 0 := by
    simp only [longest_len, uniqueWords, htok]
    rfl
  simp only [answer_eight, hlw, hlen]
  simp

theorem claim10_witness :
    answer_eight [blankRow] = { length := 0, words := [], titles := [] } :=
  claim10_empty_texts [blankRow] (by decide)

theorem answer_nine_eq (df : List BookRecord) :
    answer_nine df = match firstMaxRow (validDates df) with
      | none => (none, none)
      | some r => (r.title, r.publish_date) := by
  unfold answer_nine
  rw [head_insertionSort_eq_firstMaxRow]

/-- A row dated 2020-05-01. -/
def rowD2020 : BookRecord :=
  { blankRow with title := some ("X"), publish_date := some ⟨2020, 5, 1⟩ }

/-- A row dated 2021-01-01. -/
def rowD2021 : BookRecord :=
  { blankRow with title := some ("Y"), publish_date := some ⟨2021, 1, 1⟩ }

/-- Claim C8: `answer_nine` returns `(absent, absent)` exactly when no row
has a present date; otherwise it returns the title and date of the first
(table-order) row among the date-bearing rows attaining the maximal
publish date — every present date is bounded by the returned one, and
every earlier date-bearing row is strictly below it; on rows dated
2020-05-01, 2021-01-01 and one undated row it picks the 2021-01-01 row. -/
theorem claim8_most_recent (df : List BookRecord) :
    (answer_nine df = (none, none) ↔ ∀ r ∈ df, r.publish_date = none) ∧
    (∀ t d, answer_nine df = (t, some d) →
      ∃ l₁ l₂ r, validDates df = l₁ ++ r :: l₂ ∧ r.title = t ∧
        r.publish_date = some d ∧
        (∀ x ∈ df, ∀ e, x.publish_date = some e → e.key ≤ d.key) ∧
        (∀ x ∈ l₁, ∀ e, x.publish_date = some e → e.key < d.key)) ∧
    answer_nine [rowD2020, rowD2021, blankRow] =
      (some ("Y"), some ⟨2021, 1, 1⟩) := by
  refine ⟨⟨?_, ?_⟩, ?_, by decide⟩
  · intro h
    intro r hr
    by_contra hrd
    have hrv : r ∈ validDates df := by
      refine List.mem_filter.mpr ⟨hr, ?_⟩
      cases hpd : r.publish_date with
      | none => exact absurd hpd hrd
      | some e => rfl
    cases hv : validDates df with
    | nil =>
      rw [hv] at hrv
      exact absurd hrv (List.not_mem_nil r)
    | cons a rest =>
      cases hfm : firstMaxRow (validDates df) with
      | none =>
        rw [hv] at hfm
        exact absurd hfm (firstMaxRow_ne_none a rest)
      | some m =>
        have hans : answer_nine df = (m.title, m.publish_date) := by
          rw [answer_nine_eq df, hfm]
        rw [hans] at h
        have hmd : m.publish_date = none := congrArg Prod.snd h
        obtain ⟨l₁, l₂, hdec, _, _⟩ := firstMaxRow_spec _ m hfm
        have hmv : m ∈ validDates df := by
          rw [hdec]
          exact List.mem_append.mpr (Or.inr (List.mem_cons_self m l₂))
        have hms : m.publish_date.isSome := (List.mem_filter.mp hmv).2
        rw [hmd] at hms
        exact Bool.noConfusion hms
  · intro h
    have hnil : validDates df = [] := by
      refine List.filter_eq_nil_iff.mpr ?_
      intro r hr
      rw [h r hr]
      simp
    rw [answer_nine_eq df, hnil]
    rfl
  · intro t d h
    cases hfm : firstMaxRow (validDates df) with
    | none =>
      have hans : answer_nine df = (none, none) := by
        rw [answer_nine_eq df, hfm]
      rw [hans] at h
      exact absurd (congrArg Prod.snd h) (by simp)
    | some m =>
      have hans : answer_nine df = (m.title, m.publish_date) := by
        rw [answer_nine_eq df, hfm]
      rw [hans] at h
      have ht : m.title = t := congrArg Prod.fst h
      have hd : m.publish_date = some d := congrArg Prod.snd h
      obtain ⟨l₁, l₂, hdec, hlt, hle⟩ := firstMaxRow_spec _ m hfm
      have hkey : dateKey m = d.key := by
        show (match m.publish_date with | some x => x.key | none => 0) = d.key
        rw [hd]
      refine ⟨l₁, l₂, m, hdec, ht, hd, ?_, ?_⟩
      · intro x hx e hxe
        have hxv : x ∈ validDates df := List.mem_filter.mpr ⟨hx, by rw [hxe]; rfl⟩
        have hb := hle x hxv
        have hxkey : dateKey x = e.key := by
          show (match x.publish_date with | some y => y.key | none => 0) = e.key
          rw [hxe]
        rw [← hxkey, ← hkey]
        exact hb
      · intro x hx e hxe
        have hb := hlt x hx
        have hxkey : dateKey x = e.key := by
          show (match x.publish_date with | some y => y.key | none => 0) = e.key
          rw [hxe]
        rw [← hxkey, ← hkey]
        exact hb

theorem claim8_witness :
    answer_nine ([] : List BookRecord) = (none, none) :=
  (claim8_most_recent []).1.mpr (fun r hr => absurd hr (List.not_mem_nil r))

/-- Row with description "A brilliant, unforgettable story". -/
def rowT1 : BookRecord :=
  { blankRow with
    title := some ("Book One")
    description := ("A brilliant, unforgettable story").toList }

/-- Row with first sentence "It was unforgettable.". -/
def rowT2 : BookRecord :=
  { blankRow with
    title := some ("Book Two")
    first_sentence := ("It was unforgettable.").toList }

/-- Claim C6: the words of `answer_eight` are exactly the distinct tokens
of the rows' combined stripped texts whose length attains the reported
(maximal) length; every token's length is bounded by it; a title appears
in `titles` exactly when its (present-titled) row's clean text contains
some longest word as a substring; and on the two example rows the answer
is length 13, the word "unforgettable", and both titles. -/
theorem claim6_longest_words (df : List BookRecord) :
    (∀ w, w ∈ (answer_eight df).words ↔
      (w ∈ allTokens df ∧ w.length = (answer_eight df).length)) ∧
    (∀ w ∈ allTokens df, w.length ≤ (answer_eight df).length) ∧
    (∀ t, t ∈ (answer_eight df).titles ↔
      ∃ r ∈ df, r.title = some t ∧
        ∃ w ∈ (answer_eight df).words, w <:+: cleanText r) ∧
    answer_eight [rowT1, rowT2] =
      { length := 13, words := [("unforgettable").toList],
        titles := [("Book One"), ("Book Two")] } := by
  refine ⟨?_, ?_, ?_, by decide⟩
  · intro w
    show w ∈ longest_words df ↔ w ∈ allTokens df ∧ w.length = longest_len df
    simp only [longest_words, uniqueWords, List.mem_filter, mem_dedupKeepFirst,
      decide_eq_true_eq]
  · intro w hw
    show w.length ≤ longest_len df
    have hwu : w ∈ uniqueWords df := by
      show w ∈ dedupKeepFirst (allTokens df)
      exact (mem_dedupKeepFirst w (allTokens df)).mpr hw
    exact le_foldr_max _ _ (List.mem_map.mpr ⟨w, hwu, rfl⟩)
  · intro t
    show (t ∈ if longest_words df = [] then []
        else dedupKeepFirst (df.filterMap (fun r =>
          if (longest_words df).any (fun w => decide (w <:+: cleanText r))
          then r.title else none))) ↔ _
    by_cases hlw : longest_words df = []
    · rw [if_pos hlw]
      constructor
      · intro ht
        exact absurd ht (List.not_mem_nil t)
      · rintro ⟨r, hr, hrt, w, hw, hinf⟩
        have hw' : w ∈ longest_words df := hw
        rw [hlw] at hw'
        exact absurd hw' (List.not_mem_nil w)
    · rw [if_neg hlw, mem_dedupKeepFirst, List.mem_filterMap]
      constructor
      · rintro ⟨r, hr, hfr⟩
        by_cases hany : (longest_words df).any
            (fun w => decide (w <:+: cleanText r)) = true
        · rw [if_pos hany] at hfr
          obtain ⟨w, hw, hwinf⟩ := List.any_eq_true.mp hany
          exact ⟨r, hr, hfr, w, hw, of_decide_eq_true hwinf⟩
        · rw [if_neg hany] at hfr
          exact absurd hfr (by simp)
      · rintro ⟨r, hr, hrt, w, hw, hinf⟩
        refine ⟨r, hr, ?_⟩
        have hany : (longest_words df).any
            (fun w => decide (w <:+: cleanText r)) = true :=
          List.any_eq_true.mpr ⟨w, hw, decide_eq_true hinf⟩
        rw [if_pos hany]
        exact hrt

theorem claim6_witness :
    ("unforgettable").toList ∈ (answer_eight [rowT1, rowT2]).words :=
  ((claim6_longest_words [rowT1, rowT2]).1 (("unforgettable").toList)).mpr (by decide)

end BlueVine
